import Mathlib

/-!
Verification of the bmap-driven copy engine (bmap-tools).

Shallow embedding of the core functions of `bmaptools/BmapCopy.py` and of
the frozen snapshot `tests/oldcodebase/BmapCopy2_6.py`.  Python integers
are modelled as `Nat` (all quantities involved — block numbers, sizes,
counts — are nonnegative in every reachable state), byte buffers as
`List Nat`, and fallible code as `Except CopyErr`.  SHA1 itself is kept
abstract: every function that hashes takes the hash as an explicit
function argument, since the claims only depend on whether the computed
digest equals the declared one.
-/

/-- Error taxonomy of the copy engine.  The Python module raises a single
`Error` class with a human-readable message; the constructors below
discriminate the distinct raise sites relevant to the claims.
`unboundLocal` and `assertFailed` model Python `UnboundLocalError` and
`AssertionError`, and `valueError` a failing `int()` conversion. -/
inductive CopyErr where
  | unsupportedVersion (major : Nat)
  | valueError
  | zeroDivision
  | unboundLocal
  | invalidRange (text : String)
  | imageTooShort (block : Nat)
  | checksumMismatch (first last : Nat)
  | bmapChecksumMismatch
  | assertFailed
  | inconsistentBmap (written mapped : Nat)
  | conflictingImageSize (next known : Nat)
  | cannotSync
  | restoreSchedFailed
  | restoreRatioFailed
  deriving DecidableEq, Repr

/-- `BmapCopy._get_batches(first, last)` (BmapCopy.py lines 267-287 and
identically BmapCopy2_6.py lines 411-433): split the block range
`[first, last]` into batches of `B = self._batch_blocks` blocks.  Direct
transcription of the `while` loop followed by the trailing
`batch_blocks = last - first + 1; if batch_blocks: yield ...` tail.
For `B = 0` the Python loop never terminates; we return `[]` there (the
claims all assume a positive batch size).  Subtraction is `Nat`
subtraction, which agrees with Python on the reachable domain
`first ≤ last + 1`. -/
def get_batches (B first last : Nat) : List (Nat × Nat × Nat) :=
  if hB : B = 0 then []
  else if h : first + B - 1 ≤ last then
    (first, first + B - 1, B) :: get_batches B (first + B) last
  else if last + 1 - first = 0 then []
  else [(first, first + (last + 1 - first) - 1, last + 1 - first)]
termination_by last + 1 - first
decreasing_by omega

theorem get_batches_flatten (B : Nat) (hB : 0 < B) : ∀ (first last : Nat),
    ((get_batches B first last).flatMap fun c => List.range' c.1 c.2.2) =
      List.range' first (last + 1 - first) := by
  intro first last
  induction first, last using get_batches.induct with
  | B => exact B
  | case1 first last hB0 => omega
  | case2 first last hB0 h ih =>
    rw [get_batches, dif_neg hB0, dif_pos h, List.flatMap_cons, ih,
      List.range'_append_1 first B (last + 1 - (first + B))]
    congr 1
    omega
  | case3 first last hB0 h h2 =>
    rw [get_batches, dif_neg hB0, dif_neg h, if_pos h2]
    simp [h2]
  | case4 first last hB0 h h2 =>
    rw [get_batches, dif_neg hB0, dif_neg h, if_neg h2]
    simp

theorem get_batches_mem (B : Nat) (hB : 0 < B) : ∀ (first last : Nat),
    ∀ c ∈ get_batches B first last,
      0 < c.2.2 ∧ c.2.2 ≤ B ∧ c.2.1 + 1 = c.1 + c.2.2 := by
  intro first last
  induction first, last using get_batches.induct with
  | B => exact B
  | case1 first last hB0 => omega
  | case2 first last hB0 h ih =>
    intro c hc
    rw [get_batches, dif_neg hB0, dif_pos h] at hc
    rcases List.mem_cons.mp hc with rfl | hc
    · dsimp only
      exact ⟨hB, Nat.le_refl _, by omega⟩
    · exact ih c hc
  | case3 first last hB0 h h2 =>
    intro c hc
    rw [get_batches, dif_neg hB0, dif_neg h, if_pos h2] at hc
    exact absurd hc (List.not_mem_nil c)
  | case4 first last hB0 h h2 =>
    intro c hc
    rw [get_batches, dif_neg hB0, dif_neg h, if_neg h2] at hc
    rcases List.mem_singleton.mp hc with rfl
    dsimp only
    exact ⟨by omega, by omega, by omega⟩

theorem get_batches_sum (B : Nat) (hB : 0 < B) : ∀ (first last : Nat),
    ((get_batches B first last).map fun c => c.2.2).sum = last + 1 - first := by
  intro first last
  induction first, last using get_batches.induct with
  | B => exact B
  | case1 first last hB0 => omega
  | case2 first last hB0 h ih =>
    rw [get_batches, dif_neg hB0, dif_pos h, List.map_cons, List.sum_cons, ih]
    dsimp only
    omega
  | case3 first last hB0 h h2 =>
    rw [get_batches, dif_neg hB0, dif_neg h, if_pos h2]
    simpa using h2.symm
  | case4 first last hB0 h h2 =>
    rw [get_batches, dif_neg hB0, dif_neg h, if_neg h2]
    simp

theorem get_batches_dropLast (B : Nat) (hB : 0 < B) : ∀ (first last : Nat),
    ∀ c ∈ (get_batches B first last).dropLast, c.2.2 = B := by
  intro first last
  induction first, last using get_batches.induct with
  | B => exact B
  | case1 first last hB0 => omega
  | case2 first last hB0 h ih =>
    intro c hc
    rw [get_batches, dif_neg hB0, dif_pos h] at hc
    rcases hrest : get_batches B (first + B) last with _ | ⟨b, t⟩
    · rw [hrest] at hc
      simp at hc
    · rw [hrest, List.dropLast_cons₂, List.mem_cons] at hc
      rcases hc with rfl | hc
      · rfl
      · exact ih c (by rw [hrest]; exact hc)
  | case3 first last hB0 h h2 =>
    intro c hc
    rw [get_batches, dif_neg hB0, dif_neg h, if_pos h2] at hc
    simp at hc
  | case4 first last hB0 h h2 =>
    intro c hc
    rw [get_batches, dif_neg hB0, dif_neg h, if_neg h2] at hc
    simp at hc

/-- C1: for every pair of block indices `(first, last)` with
`first ≤ last` and every positive batch size `B` in blocks,
`_get_batches` yields an ordered sequence of `(start, end, length)`
chunks that exactly partitions `[first, last]` in increasing order
(stated as: the concatenation of the chunks' block runs is exactly the
run `first, first+1, ..., last`), with `length = end - start + 1` for
every chunk, every chunk before the last having length exactly `B`, and
the final chunk having length at most `B`. -/
theorem get_batches_partitions (B first last : Nat) (hB : 0 < B) (hfl : first ≤ last) :
    ((get_batches B first last).flatMap fun c => List.range' c.1 c.2.2) =
        List.range' first (last - first + 1)
      ∧ (∀ c ∈ get_batches B first last, c.1 ≤ c.2.1 ∧ c.2.2 = c.2.1 - c.1 + 1)
      ∧ (∀ c ∈ (get_batches B first last).dropLast, c.2.2 = B)
      ∧ (∀ c, (get_batches B first last).getLast? = some c → c.2.2 ≤ B) := by
  refine ⟨?_, ?_, get_batches_dropLast B hB first last, ?_⟩
  · rw [get_batches_flatten B hB first last]
    congr 1
    omega
  · intro c hc
    obtain ⟨h1, h2, h3⟩ := get_batches_mem B hB first last c hc
    omega
  · intro c hc
    obtain ⟨h1, h2, h3⟩ :=
      get_batches_mem B hB first last c (List.mem_of_getLast?_eq_some hc)
    omega

/-- Witness for C1 at `B = 3`, `first = 2`, `last = 9`
(batches `(2,4,3) (5,7,3) (8,9,2)`). -/
theorem get_batches_partitions_witness :
    0 < 3 ∧ 2 ≤ 9
      ∧ (((get_batches 3 2 9).flatMap fun c => List.range' c.1 c.2.2) =
            List.range' 2 (9 - 2 + 1)
          ∧ (∀ c ∈ get_batches 3 2 9, c.1 ≤ c.2.1 ∧ c.2.2 = c.2.1 - c.1 + 1)
          ∧ (∀ c ∈ (get_batches 3 2 9).dropLast, c.2.2 = 3)
          ∧ (∀ c, (get_batches 3 2 9).getLast? = some c → c.2.2 ≤ 3)) :=
  ⟨by decide, by decide, get_batches_partitions 3 2 9 (by decide) (by decide)⟩

/-- Python truthiness of the optional per-range checksum string: `None`
and the empty string are falsy (`if verify and sha1:`). -/
def pyStrTruthy : Option String → Bool
  | none => false
  | some s => !s.isEmpty

/-- Batch loop of `BmapCopy._copy_data` (BmapCopy.py lines 289-335),
followed by the final checksum comparison.  Arguments after the colon:
the remaining batch list, the current read position in bytes (the reads
are sequential: one initial seek to `first * block_size`, then each
`read` advances by the number of bytes actually returned), the bytes
hashed so far (`hash_obj.update(chunk)` unrolled to an accumulator), and
`self._blocks_written`.  An empty read raises "image file is too short";
a nonempty short read near EOF is accepted, exactly as `file.read`
behaves for a regular file.  Destination writes are pure in this model
and need no state. -/
def copyDataGo (hash : List Nat → String) (bs : Nat) (image : List Nat)
    (first last : Nat) (sha1 : Option String) (hashing : Bool) :
    List (Nat × Nat × Nat) → Nat → List Nat → Nat → Except CopyErr Nat
  | [], _pos, acc, written =>
    if hashing && (hash acc != sha1.getD "") then
      .error (.checksumMismatch first last)
    else .ok written
  | (start, _e, length) :: rest, pos, acc, written =>
    let chunk := (image.drop pos).take (length * bs)
    if chunk.isEmpty then .error (.imageTooShort start)
    else
      copyDataGo hash bs image first last sha1 hashing rest (pos + chunk.length)
        (if hashing then acc ++ chunk else acc) (written + length)

/-- `BmapCopy._copy_data(first, last, sha1, verify)`: the hash object is
allocated only when `verify and sha1` is truthy (`hashing`); the batches
come from `_get_batches`, reading starts at `first * block_size`, and
`written` is the incoming value of `self._blocks_written`. -/
def copyData (hash : List Nat → String) (B bs : Nat) (image : List Nat)
    (first last : Nat) (sha1 : Option String) (verify : Bool) (written : Nat) :
    Except CopyErr Nat :=
  copyDataGo hash bs image first last sha1 (verify && pyStrTruthy sha1)
    (get_batches B first last) (first * bs) [] written

/-- One `Range` of the parsed bmap, as consumed by the copy loop. -/
structure BmapRange where
  first : Nat
  last : Nat
  sha1 : Option String
  deriving DecidableEq, Repr

/-- The range loop of `BmapCopy.copy` (BmapCopy.py lines 415-420):
`self._blocks_written = 0` at the caller, then one `_copy_data` per
block range, threading the accumulated count; the first raised error
aborts the loop. -/
def copyLoop (hash : List Nat → String) (B bs : Nat) (image : List Nat) (verify : Bool) :
    List BmapRange → Nat → Except CopyErr Nat
  | [], written => .ok written
  | r :: rest, written =>
    match copyData hash B bs image r.first r.last r.sha1 verify written with
    | .error e => .error e
    | .ok w => copyLoop hash B bs image verify rest w

/-- `BmapCopy.copy` for a bmap-driven run (BmapCopy.py lines 415-427):
run the range loop from `blocks_written = 0`, then the finalization
sanity check `if self._blocks_written != self.bmap_mapped_cnt: raise`.
The trailing optional `sync()` is destination I/O and out of scope
here. -/
def bmapCopyRun (hash : List Nat → String) (B bs : Nat) (image : List Nat)
    (verify : Bool) (ranges : List BmapRange) (mapped_cnt : Nat) : Except CopyErr Nat :=
  match copyLoop hash B bs image verify ranges 0 with
  | .error e => .error e
  | .ok blocks_written =>
    if blocks_written ≠ mapped_cnt then
      .error (.inconsistentBmap blocks_written mapped_cnt)
    else .ok blocks_written

theorem copyDataGo_ok_written (hash : List Nat → String) (bs : Nat) (image : List Nat)
    (first last : Nat) (sha1 : Option String) (hashing : Bool) :
    ∀ (bl : List (Nat × Nat × Nat)) (pos : Nat) (acc : List Nat) (written n : Nat),
      copyDataGo hash bs image first last sha1 hashing bl pos acc written = .ok n →
      n = written + ((bl.map fun c => c.2.2).sum) := by
  intro bl
  induction bl with
  | nil =>
    intro pos acc written n h
    rw [copyDataGo] at h
    split at h
    · exact absurd h (by simp)
    · simp only [Except.ok.injEq] at h
      simp [h]
  | cons hd tl ih =>
    obtain ⟨start, e, len⟩ := hd
    intro pos acc written n h
    rw [copyDataGo] at h
    split at h
    · exact absurd h (by simp)
    · have hrec := ih _ _ _ _ h
      have hsum : ((((start, e, len)) :: tl).map fun c => c.2.2).sum =
          len + (tl.map fun c => c.2.2).sum := rfl
      omega

theorem copyDataGo_not_hashing (hash : List Nat → String) (bs : Nat) (image : List Nat)
    (first last : Nat) (sha1 : Option String) :
    ∀ (bl : List (Nat × Nat × Nat)) (pos : Nat) (acc : List Nat) (written f l : Nat),
      copyDataGo hash bs image first last sha1 false bl pos acc written ≠
        .error (.checksumMismatch f l) := by
  intro bl
  induction bl with
  | nil =>
    intro pos acc written f l h
    rw [copyDataGo] at h
    simp at h
  | cons hd tl ih =>
    obtain ⟨start, e, len⟩ := hd
    intro pos acc written f l h
    rw [copyDataGo] at h
    split at h
    · simp at h
    · exact ih _ _ _ _ _ h

theorem copyDataGo_full (hash : List Nat → String) (bs : Nat) (image : List Nat)
    (first last : Nat) (s : String) (hashing : Bool) (hbs : 0 < bs) :
    ∀ (bl : List (Nat × Nat × Nat)), (∀ c ∈ bl, 0 < c.2.2) →
      ∀ (pos : Nat) (acc : List Nat) (written : Nat),
      pos + ((bl.map fun c => c.2.2).sum) * bs ≤ image.length →
      copyDataGo hash bs image first last (some s) hashing bl pos acc written =
        (if hashing && (hash (acc ++ (image.drop pos).take
              (((bl.map fun c => c.2.2).sum) * bs)) != s) then
          .error (.checksumMismatch first last)
        else .ok (written + ((bl.map fun c => c.2.2).sum))) := by
  intro bl
  induction bl with
  | nil =>
    intro hmem pos acc written hcov
    rw [copyDataGo]
    simp
  | cons hd tl ih =>
    obtain ⟨start, e, len⟩ := hd
    intro hmem pos acc written hcov
    have hlen : 0 < len := hmem (start, e, len) (List.mem_cons_self _ _)
    have hsum : ((((start, e, len)) :: tl).map fun c => c.2.2).sum =
        len + (tl.map fun c => c.2.2).sum := rfl
    rw [hsum] at hcov ⊢
    rw [Nat.add_mul] at hcov ⊢
    have hchunk : ((image.drop pos).take (len * bs)).length = len * bs := by
      rw [List.length_take, List.length_drop]
      omega
    have hpos2 : 0 < len * bs := Nat.mul_pos hlen hbs
    have hne : ¬ ((image.drop pos).take (len * bs)).isEmpty = true := by
      simp only [List.isEmpty_iff]
      intro hnil
      have hl := congrArg List.length hnil
      rw [hchunk] at hl
      simp at hl
      omega
    rw [copyDataGo]
    rw [if_neg hne, hchunk]
    rw [ih (fun c hc => hmem c (List.mem_cons_of_mem _ hc)) (pos + len * bs)
      (if hashing then acc ++ (image.drop pos).take (len * bs) else acc)
      (written + len) (by omega)]
    cases hashing with
    | false =>
      simp only [Bool.false_and]
      rw [if_neg Bool.false_ne_true, if_neg Bool.false_ne_true]
      congr 1
      omega
    | true =>
      rw [List.take_add, List.drop_drop, if_pos rfl]
      rw [← List.append_assoc, Nat.add_assoc]

/-- C6: during a copy of a range carrying a declared per-range checksum
`s`, `_copy_data` raises a checksum-mismatch error exactly when
verification is enabled and the SHA1 of the bytes actually read for the
range differs from `s`; with verification disabled no data-checksum
error is ever raised, for any image contents.  (For the enabled
direction the image is assumed to cover the range, so that the bytes
read are the slice `[first*bs, (last+1)*bs)` of the image.) -/
theorem copy_data_checksum_iff (hash : List Nat → String) (B bs : Nat)
    (image : List Nat) (first last w0 : Nat) (s : String)
    (hB : 0 < B) (hbs : 0 < bs) (hs : s ≠ "") (hfl : first ≤ last) :
    (∀ (img : List Nat) (f l : Nat),
        copyData hash B bs img first last (some s) false w0 ≠
          .error (.checksumMismatch f l))
      ∧ ((last + 1) * bs ≤ image.length →
          (copyData hash B bs image first last (some s) true w0 =
              .error (.checksumMismatch first last)
            ↔ hash ((image.drop (first * bs)).take ((last + 1 - first) * bs)) ≠ s)
          ∧ (hash ((image.drop (first * bs)).take ((last + 1 - first) * bs)) = s →
              copyData hash B bs image first last (some s) true w0 =
                .ok (w0 + (last + 1 - first)))) := by
  constructor
  · intro img f l
    rw [copyData]
    simp only [Bool.false_and]
    exact copyDataGo_not_hashing hash bs img first last (some s) _ _ _ _ f l
  · intro hcov
    have hse : s.isEmpty = false := by
      cases hb : s.isEmpty with
      | false => rfl
      | true => exact absurd ((String.isEmpty_iff s).mp hb) hs
    have htruthy : (true && pyStrTruthy (some s)) = true := by
      simp [pyStrTruthy, hse]
    have hmem : ∀ c ∈ get_batches B first last, 0 < c.2.2 :=
      fun c hc => (get_batches_mem B hB first last c hc).1
    have hsum := get_batches_sum B hB first last
    have h1 : first + (last + 1 - first) = last + 1 := by omega
    have h2 := Nat.add_mul first (last + 1 - first) bs
    rw [h1] at h2
    have hcov2 : first * bs +
        ((get_batches B first last).map fun c => c.2.2).sum * bs ≤ image.length := by
      rw [hsum]
      omega
    rw [copyData, htruthy,
      copyDataGo_full hash bs image first last s true hbs (get_batches B first last)
        hmem (first * bs) [] w0 hcov2, hsum]
    simp only [List.nil_append, Bool.true_and]
    by_cases hh : hash ((image.drop (first * bs)).take ((last + 1 - first) * bs)) = s
    · rw [hh, bne_self_eq_false]
      simp [hh]
    · rw [if_pos (bne_iff_ne.mpr hh)]
      simp [hh]

/-- Witness for C6: two-block range `[0, 1]`, block size 1, image
`[5, 6]`, declared checksum `"zz"`, abstract hash returning `"aa"`. -/
theorem copy_data_checksum_iff_witness :
    0 < 2 ∧ 0 < 1 ∧ "zz" ≠ "" ∧ 0 ≤ 1
      ∧ ((∀ (img : List Nat) (f l : Nat),
            copyData (fun _ => "aa") 2 1 img 0 1 (some "zz") false 0 ≠
              .error (.checksumMismatch f l))
          ∧ ((1 + 1) * 1 ≤ ([5, 6] : List Nat).length →
              (copyData (fun _ => "aa") 2 1 [5, 6] 0 1 (some "zz") true 0 =
                  .error (.checksumMismatch 0 1)
                ↔ (fun (_ : List Nat) => "aa")
                    ((([5, 6] : List Nat).drop (0 * 1)).take ((1 + 1 - 0) * 1)) ≠ "zz")
              ∧ ((fun (_ : List Nat) => "aa")
                    ((([5, 6] : List Nat).drop (0 * 1)).take ((1 + 1 - 0) * 1)) = "zz" →
                  copyData (fun _ => "aa") 2 1 [5, 6] 0 1 (some "zz") true 0 =
                    .ok (0 + (1 + 1 - 0))))) :=
  ⟨by decide, by decide, by decide, by decide,
    copy_data_checksum_iff (fun _ => "aa") 2 1 [5, 6] 0 1 0 "zz"
      (by decide) (by decide) (by decide) (by decide)⟩

theorem copyLoop_ok_sum (hash : List Nat → String) (B bs : Nat) (image : List Nat)
    (verify : Bool) (hB : 0 < B) :
    ∀ (ranges : List BmapRange) (w0 w : Nat),
      copyLoop hash B bs image verify ranges w0 = .ok w →
      w = w0 + (ranges.map fun r => r.last + 1 - r.first).sum := by
  intro ranges
  induction ranges with
  | nil =>
    intro w0 w h
    rw [copyLoop] at h
    simp only [Except.ok.injEq] at h
    simp [h]
  | cons r rest ih =>
    intro w0 w h
    rw [copyLoop] at h
    cases hcd : copyData hash B bs image r.first r.last r.sha1 verify w0 with
    | error e =>
      rw [hcd] at h
      exact Except.noConfusion h
    | ok w1 =>
      rw [hcd] at h
      rw [copyData] at hcd
      have h1 := copyDataGo_ok_written hash bs image r.first r.last r.sha1 _ _ _ _ _ _ hcd
      rw [get_batches_sum B hB r.first r.last] at h1
      have h2 := ih w1 w h
      have hsum : ((r :: rest).map fun q => q.last + 1 - q.first).sum =
          (r.last + 1 - r.first) + (rest.map fun q => q.last + 1 - q.first).sum := rfl
      omega

/-- C2: for a bmap-driven run whose range loop finishes without an I/O or
checksum error (`copyLoop ... = .ok w`), `BmapCopy.copy` raises the
"inconsistent bmap" error exactly when the number of blocks written
differs from the document's `MappedBlocksCount`, completes normally when
they agree, and the number of blocks written is the total size
`Σ (last - first + 1)` of the declared ranges. -/
theorem copy_consistency_check (hash : List Nat → String) (B bs : Nat)
    (image : List Nat) (verify : Bool) (ranges : List BmapRange)
    (mapped w : Nat) (hB : 0 < B)
    (hloop : copyLoop hash B bs image verify ranges 0 = .ok w) :
    (bmapCopyRun hash B bs image verify ranges mapped =
        .error (.inconsistentBmap w mapped) ↔ w ≠ mapped)
      ∧ (w = mapped → bmapCopyRun hash B bs image verify ranges mapped = .ok w)
      ∧ ((∀ r ∈ ranges, r.first ≤ r.last) →
          w = (ranges.map fun r => r.last - r.first + 1).sum) := by
  refine ⟨?_, ?_, ?_⟩
  · simp only [bmapCopyRun, hloop]
    by_cases hw : w = mapped
    · subst hw
      simp
    · simp [hw]
  · intro hw
    subst hw
    simp [bmapCopyRun, hloop]
  · intro hfl
    have h1 := copyLoop_ok_sum hash B bs image verify hB ranges 0 w hloop
    have h2 : (ranges.map fun r => r.last + 1 - r.first) =
        (ranges.map fun r => r.last - r.first + 1) := by
      apply List.map_congr_left
      intro r hr
      have := hfl r hr
      omega
    rw [h2] at h1
    omega

/-- Witness for C2: one range `[0, 1]`, batch size 2, block size 1, image
`[7, 7]`, `MappedBlocksCount = 2`. -/
theorem copy_consistency_check_witness :
    0 < 2
      ∧ copyLoop (fun _ => "") 2 1 [7, 7] false [⟨0, 1, none⟩] 0 = .ok 2
      ∧ ((bmapCopyRun (fun _ => "") 2 1 [7, 7] false [⟨0, 1, none⟩] 2 =
            .error (.inconsistentBmap 2 2) ↔ (2 : Nat) ≠ 2)
          ∧ ((2 : Nat) = 2 →
              bmapCopyRun (fun _ => "") 2 1 [7, 7] false [⟨0, 1, none⟩] 2 = .ok 2)
          ∧ ((∀ r ∈ ([⟨0, 1, none⟩] : List BmapRange), r.first ≤ r.last) →
              (2 : Nat) =
                (([⟨0, 1, none⟩] : List BmapRange).map fun r => r.last - r.first + 1).sum)) :=
  ⟨by decide, by simp [copyLoop, copyData, copyDataGo, get_batches, pyStrTruthy],
    copy_consistency_check (fun _ => "") 2 1 [7, 7] false [⟨0, 1, none⟩] 2 2
      (by decide) (by simp [copyLoop, copyData, copyDataGo, get_batches, pyStrTruthy])⟩

/-- Python `s.split(sep, 1)` (maxsplit 1): the part before the first
occurrence of `sep` and, when `sep` occurs at all, the entire remainder
after it. -/
def splitMax1 (s : String) (sep : Char) : String × Option String :=
  if s.toList.contains sep then
    (String.mk (s.toList.takeWhile (fun c => c != sep)),
      some (String.mk ((s.toList.dropWhile (fun c => c != sep)).tail)))
  else (s, none)

/-- Python `s.strip()`: remove leading and trailing whitespace. -/
def pyStrip (s : String) : String :=
  String.mk (((s.toList.dropWhile (·.isWhitespace)).reverse.dropWhile
    (·.isWhitespace)).reverse)

def digitsToNat (l : List Char) : Nat :=
  l.foldl (fun n c => n * 10 + (c.toNat - 48)) 0

/-- Python `int(s)` restricted to the nonnegative decimal forms the bmap
format uses: surrounding whitespace tolerated, at least one digit,
`none` models the `ValueError` raise. -/
def pyIntNat (s : String) : Option Nat :=
  if (pyStrip s).toList = [] then none
  else if (pyStrip s).toList.all (·.isDigit) then
    some (digitsToNat (pyStrip s).toList)
  else none

/-- One `<Range>` element as handed to `_get_block_ranges`: its text and
the optional `sha1` attribute (`None` when absent). -/
structure RawRange where
  text : String
  sha1 : Option String
  deriving DecidableEq, Repr

/-- `BmapCopy._get_block_ranges` of the current module (BmapCopy.py lines
371-403).  The extra `Option Nat` argument models the generator's local
variable `last`, which persists across loop iterations: in the
single-number branch the source executes `first = last` (line 396) —
reading `last`, not assigning it — so on the first iteration `last` is
unbound (`UnboundLocalError`) and afterwards the stale previous value is
yielded as both endpoints. -/
def getBlockRangesCurGo :
    List RawRange → Option Nat → Except CopyErr (List (Nat × Nat × Option String))
  | [], _lastVar => .ok []
  | e :: rest, lastVar =>
    match pyIntNat (pyStrip (splitMax1 (pyStrip e.text) '-').1),
        (splitMax1 (pyStrip e.text) '-').2 with
    | none, _ => .error .valueError
    | some firstN, some p2 =>
      match pyIntNat (pyStrip p2) with
      | none => .error .valueError
      | some lastN =>
        if firstN > lastN then .error (.invalidRange (pyStrip e.text))
        else
          match getBlockRangesCurGo rest (some lastN) with
          | .error err => .error err
          | .ok tl => .ok ((firstN, lastN, e.sha1) :: tl)
    | some _firstN, none =>
      match lastVar with
      | none => .error .unboundLocal
      | some lv =>
        match getBlockRangesCurGo rest lastVar with
        | .error err => .error err
        | .ok tl => .ok ((lv, lv, e.sha1) :: tl)

def getBlockRangesCur (elems : List RawRange) :
    Except CopyErr (List (Nat × Nat × Option String)) :=
  getBlockRangesCurGo elems none

/-- `BmapCopy._get_block_ranges` of the frozen 2.6 snapshot
(BmapCopy2_6.py lines 389-409), whose single-number branch correctly
executes `last = first`. -/
def getBlockRanges26Go :
    List RawRange → Except CopyErr (List (Nat × Nat × Option String))
  | [] => .ok []
  | e :: rest =>
    match pyIntNat (pyStrip (splitMax1 (pyStrip e.text) '-').1),
        (splitMax1 (pyStrip e.text) '-').2 with
    | none, _ => .error .valueError
    | some firstN, some p2 =>
      match pyIntNat (pyStrip p2) with
      | none => .error .valueError
      | some lastN =>
        if firstN > lastN then .error (.invalidRange (pyStrip e.text))
        else
          match getBlockRanges26Go rest with
          | .error err => .error err
          | .ok tl => .ok ((firstN, lastN, e.sha1) :: tl)
    | some firstN, none =>
      match getBlockRanges26Go rest with
      | .error err => .error err
      | .ok tl => .ok ((firstN, firstN, e.sha1) :: tl)

def getBlockRanges26 (elems : List RawRange) :
    Except CopyErr (List (Nat × Nat × Option String)) :=
  getBlockRanges26Go elems

/-- C3 (code bug in BmapCopy.py line 396, `first = last` instead of
`last = first`): the current module fails a leading single-number range
`"5"` with `UnboundLocalError` and, after a prior range `"3-7"`, yields
the stale `(7, 7)` instead of `(5, 5)`; the frozen 2.6 snapshot yields
`(5, 5)` as the claim states.  The `"N-M"` form, the `first > last`
rejection and the optional checksum capture behave as claimed in both
versions. -/
theorem block_ranges_single_number_bug :
    getBlockRangesCur [⟨"5", none⟩] = .error .unboundLocal
      ∧ getBlockRangesCur [⟨"3-7", none⟩, ⟨"5", some "ab"⟩] =
          .ok [(3, 7, none), (7, 7, some "ab")]
      ∧ getBlockRanges26 [⟨"5", none⟩] = .ok [(5, 5, none)]
      ∧ getBlockRanges26 [⟨"3-7", some "ab"⟩] = .ok [(3, 7, some "ab")]
      ∧ getBlockRanges26 [⟨"7-3", none⟩] = .error (.invalidRange "7-3")
      ∧ getBlockRangesCur [⟨"7-3", none⟩] = .error (.invalidRange "7-3") := by
  refine ⟨?_, ?_, ?_, ?_, ?_, ?_⟩ <;> rfl

/-- The highest supported bmap format version, BmapCopy.py line 43
(`SUPPORTED_BMAP_VERSION = 1`). -/
def SUPPORTED_BMAP_VERSION : Nat := 1

/-- `int(self.bmap_version.split('.', 1)[0])` (BmapCopy.py line 119). -/
def parseVersionMajor (version : String) : Option Nat :=
  pyIntNat (splitMax1 version '.').1

/-- The fields `_parse_bmap` reads from the XML document; XML mechanics
themselves are out of scope, the parser consumes the field values. -/
structure BmapDoc where
  version : String
  blockSize : Nat
  blocksCount : Nat
  mappedBlocksCount : Nat
  deriving DecidableEq, Repr

structure BmapMeta where
  version_major : Nat
  block_size : Nat
  blocks_cnt : Nat
  mapped_cnt : Nat
  image_size : Nat
  mapped_size : Nat
  deriving DecidableEq, Repr

/-- `BmapCopy._parse_bmap` (BmapCopy.py lines 106-134): the version
check at lines 116-123 precedes every other field access; then the
`bmap_*` attributes are computed, and `bmap_mapped_percent` divides by
`bmap_blocks_cnt` (a `ZeroDivisionError` when that is 0 — the float
percentage itself is presentation-only and omitted).  `_parse_bmap` is
called from `__init__` (line 232), so a version failure prevents the
instance from being constructed: every copy entry point of this model
consumes the `BmapMeta` produced here, hence no copy I/O can precede the
version check. -/
def parseBmapMeta (doc : BmapDoc) : Except CopyErr BmapMeta :=
  match parseVersionMajor doc.version with
  | none => .error .valueError
  | some major =>
    if major > SUPPORTED_BMAP_VERSION then .error (.unsupportedVersion major)
    else if doc.blocksCount = 0 then .error .zeroDivision
    else .ok { version_major := major, block_size := doc.blockSize,
               blocks_cnt := doc.blocksCount, mapped_cnt := doc.mappedBlocksCount,
               image_size := doc.blocksCount * doc.blockSize,
               mapped_size := doc.mappedBlocksCount * doc.blockSize }

/-- C4: a bmap document whose root version attribute `"MAJOR.MINOR"` has
MAJOR strictly above the highest supported major version fails the
version check with `UnsupportedVersionError`, at parse time — and
parsing happens at construction, before any copy I/O, since `copy`
requires the successfully parsed metadata; MAJOR at or below the
supported maximum never produces that error. -/
theorem bmap_version_check (doc : BmapDoc) (major : Nat)
    (h : parseVersionMajor doc.version = some major) :
    (SUPPORTED_BMAP_VERSION < major →
        parseBmapMeta doc = .error (.unsupportedVersion major))
      ∧ (major ≤ SUPPORTED_BMAP_VERSION →
          ∀ m, parseBmapMeta doc ≠ .error (.unsupportedVersion m)) := by
  constructor
  · intro hgt
    simp only [parseBmapMeta, h]
    simp [hgt]
  · intro hle m
    simp only [parseBmapMeta, h]
    rw [if_neg (by omega)]
    split
    · simp
    · simp

/-- Witness for C4: version `"2.0"` (major 2) is rejected. -/
theorem bmap_version_check_witness :
    parseVersionMajor "2.0" = some 2
      ∧ ((SUPPORTED_BMAP_VERSION < 2 →
            parseBmapMeta ⟨"2.0", 4096, 4, 2⟩ = .error (.unsupportedVersion 2))
          ∧ (2 ≤ SUPPORTED_BMAP_VERSION →
              ∀ m, parseBmapMeta ⟨"2.0", 4096, 4, 2⟩ ≠
                .error (.unsupportedVersion m))) :=
  ⟨by decide, bmap_version_check ⟨"2.0", 4096, 4, 2⟩ 2 (by decide)⟩

/-- `mmap.find(pat)` (used by `_verify_bmap_checksum`): offset of the
first occurrence of `pat`, `none` when absent (Python returns -1 and the
code asserts against it). -/
def strFindAux (pat : List Char) : List Char → Nat → Option Nat
  | [], i => if pat.isPrefixOf [] then some i else none
  | c :: t, i =>
    if pat.isPrefixOf (c :: t) then some i else strFindAux pat t (i + 1)

/-- `mapped_bmap[sha1_pos:sha1_pos + 40] = '0' * 40`: replace `n`
characters at `pos` by `repl`. -/
def replaceAt (l : List Char) (pos n : Nat) (repl : List Char) : List Char :=
  l.take pos ++ repl ++ l.drop (pos + n)

/-- `BmapCopy._verify_bmap_checksum` (BmapCopy2_6.py lines 247-273): find
the declared checksum text inside the document bytes (`assert` on
failure), overwrite 40 characters at that position with `'0' * 40`,
recompute the digest over the zeroed document and fail on mismatch. -/
def verifyBmapChecksum (hash : List Char → String) (doc : List Char)
    (correct : String) : Except CopyErr Unit :=
  match strFindAux correct.toList doc 0 with
  | none => .error .assertFailed
  | some pos =>
    if hash (replaceAt doc pos 40 (List.replicate 40 '0')) ≠ correct then
      .error .bmapChecksumMismatch
    else .ok ()

/-- The gate guarding the self-checksum (BmapCopy2_6.py line 313):
`if self.bmap_version_major >= 1 and self.bmap_version_minor >= 3:`. -/
def bmapChecksumGate (major minor : Nat) : Bool :=
  decide (1 ≤ major) && decide (3 ≤ minor)

/-- `_parse_bmap` lines 313-315: verify the document checksum only when
the gate holds. -/
def maybeVerifyBmapChecksum (hash : List Char → String) (doc : List Char)
    (correct : String) (major minor : Nat) : Except CopyErr Unit :=
  if bmapChecksumGate major minor then verifyBmapChecksum hash doc correct
  else .ok ()

/-- The spec's wording, for comparison: a version "at or above the
self-checksum baseline (1.3)" in the usual major-then-minor version
order. -/
def specSelfChecksumBaseline (major minor : Nat) : Bool :=
  decide (1 < major ∨ (major = 1 ∧ 3 ≤ minor))

/-- CPython 2 semantics of `int > str`: numbers compare smaller than
strings, so the comparison is always `False`.  Models
`self.bmap_version_major > SUPPORTED_BMAP_VERSION` at BmapCopy2_6.py
line 292, where `SUPPORTED_BMAP_VERSION = "1.0"` is a string (under
Python 3 that same line raises `TypeError` instead). -/
def py2IntGtStr (_n : Nat) (_s : String) : Bool := false

def OLD_SUPPORTED_BMAP_VERSION : String := "1.0"

/-- The version-support check of the 2.6 snapshot parser: because of the
int-vs-str comparison it never rejects any major version. -/
def oldVersionCheckRejects (major : Nat) : Bool :=
  py2IntGtStr major OLD_SUPPORTED_BMAP_VERSION

/-- C5 counterexample: version 2.0 is at or above the 1.3 baseline and is
not rejected by the snapshot's version-support check, yet undergoes no
self-checksum verification — a document whose declared checksum
disagrees with every recomputed digest parses without
`ChecksumMismatchError`, while direct verification of the same document
would fail. -/
theorem bmap_self_checksum_gate_counterexample :
    specSelfChecksumBaseline 2 0 = true
      ∧ oldVersionCheckRejects 2 = false
      ∧ bmapChecksumGate 2 0 = false
      ∧ maybeVerifyBmapChecksum (fun _ => "") "abcd".toList "abcd" 2 0 = .ok ()
      ∧ verifyBmapChecksum (fun _ => "") "abcd".toList "abcd" =
          .error .bmapChecksumMismatch :=
  ⟨rfl, rfl, rfl, rfl, rfl⟩

/-- C5 (amended): the 2.6 snapshot parser verifies the document
self-checksum exactly when `major ≥ 1` and `minor ≥ 3` — which within
supported documents (major ≤ 1) coincides with "version at or above
1.3", but skips e.g. version 2.0 — and, when it verifies and the
declared checksum text occurs at `pos`, it recomputes the digest over
the document with 40 characters at `pos` zeroed out and raises
`ChecksumMismatchError` exactly when the recomputed digest differs from
the declared one; when the gate fails, no verification happens at
all. -/
theorem bmap_self_checksum_gate (hash : List Char → String) (doc : List Char)
    (correct : String) (major minor pos : Nat)
    (hfind : strFindAux correct.toList doc 0 = some pos) :
    (bmapChecksumGate major minor = true ↔ (1 ≤ major ∧ 3 ≤ minor))
      ∧ (1 ≤ major → 3 ≤ minor →
          (maybeVerifyBmapChecksum hash doc correct major minor =
              .error .bmapChecksumMismatch
            ↔ hash (replaceAt doc pos 40 (List.replicate 40 '0')) ≠ correct))
      ∧ (bmapChecksumGate major minor = false →
          maybeVerifyBmapChecksum hash doc correct major minor = .ok ()) := by
  refine ⟨?_, ?_, ?_⟩
  · simp [bmapChecksumGate]
  · intro h1 h3
    rw [maybeVerifyBmapChecksum, if_pos (by simp [bmapChecksumGate, h1, h3])]
    simp only [verifyBmapChecksum, hfind]
    by_cases hh : hash (replaceAt doc pos 40 (List.replicate 40 '0')) = correct
    · simp [hh]
    · simp [hh]
  · intro hg
    rw [maybeVerifyBmapChecksum, if_neg (by simp [hg])]

/-- Witness for C5 (amended) at version 1.3, declared checksum `"ab"`
found at offset 0 of document `"abcd"`, abstract hash `"xx"`. -/
theorem bmap_self_checksum_gate_witness :
    strFindAux "ab".toList "abcd".toList 0 = some 0
      ∧ ((bmapChecksumGate 1 3 = true ↔ (1 ≤ 1 ∧ 3 ≤ 3))
          ∧ (1 ≤ 1 → 3 ≤ 3 →
              (maybeVerifyBmapChecksum (fun _ => "xx") "abcd".toList "ab" 1 3 =
                  .error .bmapChecksumMismatch
                ↔ (fun (_ : List Char) => "xx")
                    (replaceAt "abcd".toList 0 40 (List.replicate 40 '0')) ≠ "ab"))
          ∧ (bmapChecksumGate 1 3 = false →
              maybeVerifyBmapChecksum (fun _ => "xx") "abcd".toList "ab" 1 3 =
                .ok ())) :=
  ⟨by decide,
    bmap_self_checksum_gate (fun _ => "xx") "abcd".toList "ab" 1 3 0 (by decide)⟩

/-- Per-instance geometry attributes touched by `_set_image_size`; the
`*_human` strings are presentation-only and omitted. -/
structure GeomState where
  image_size : Option Nat
  blocks_cnt : Option Nat
  mapped_cnt : Option Nat
  mapped_size : Option Nat
  deriving DecidableEq, Repr

/-- The unconditional tail of `_set_image_size` (BmapCopy2_6.py lines
237-245): assign `image_size`, recompute `blocks_cnt` as
`ceil(size / block_size)` (two statements, floor division in the
source), and default the mapped-area attributes when `mapped_cnt` is
still `None`. -/
def setGeom (block_size : Nat) (st : GeomState) (sz : Nat) : GeomState :=
  match st.mapped_cnt with
  | none =>
    { image_size := some sz, blocks_cnt := some ((sz + block_size - 1) / block_size),
      mapped_cnt := some ((sz + block_size - 1) / block_size), mapped_size := some sz }
  | some m =>
    { image_size := some sz, blocks_cnt := some ((sz + block_size - 1) / block_size),
      mapped_cnt := some m, mapped_size := st.mapped_size }

/-- `BmapCopy._set_image_size` (BmapCopy2_6.py lines 227-245): raise when
an already-known size conflicts with the new value — the raise happens
before any assignment, so a failing call leaves every attribute
untouched — otherwise (re)assign the geometry. -/
def set_image_size (block_size : Nat) (st : GeomState) (sz : Nat) :
    Except CopyErr GeomState :=
  match st.image_size with
  | some known =>
    if known ≠ sz then .error (.conflictingImageSize sz known)
    else .ok (setGeom block_size st sz)
  | none => .ok (setGeom block_size st sz)

/-- C7: the image size is a set-once field: assigning it while unknown
succeeds; re-assigning the identical value succeeds and — in any state
whose geometry is consistent with that size, which every reachable
known-size state is — changes nothing; a conflicting assignment fails
with an error, raised before any mutation, so the recorded size is
unchanged. -/
theorem image_size_set_once (block_size : Nat) (st : GeomState) (sz : Nat) :
    (st.image_size = none →
        set_image_size block_size st sz = .ok (setGeom block_size st sz))
      ∧ (st.image_size = some sz →
          st.blocks_cnt = some ((sz + block_size - 1) / block_size) →
          (∃ m, st.mapped_cnt = some m) →
          set_image_size block_size st sz = .ok st)
      ∧ (∀ known, st.image_size = some known → known ≠ sz →
          set_image_size block_size st sz =
            .error (.conflictingImageSize sz known)) := by
  refine ⟨?_, ?_, ?_⟩
  · intro h
    simp only [set_image_size, h]
  · intro hsz hblocks hm
    obtain ⟨m, hmc⟩ := hm
    cases st with
    | mk i b mc ms =>
      simp only at hsz hblocks hmc
      subst hsz hblocks hmc
      simp [set_image_size, setGeom]
  · intro known hknown hne
    simp only [set_image_size, hknown, if_pos hne]

/-- Witness for C7: a consistent state with known size 8192 at block
size 4096: re-assigning 8192 is a no-op, assigning 4096 is rejected. -/
theorem image_size_set_once_witness :
    (⟨some 8192, some 2, some 2, some 8192⟩ : GeomState).image_size = some 8192
      ∧ set_image_size 4096 ⟨some 8192, some 2, some 2, some 8192⟩ 8192 =
          .ok ⟨some 8192, some 2, some 2, some 8192⟩
      ∧ set_image_size 4096 ⟨some 8192, some 2, some 2, some 8192⟩ 4096 =
          .error (.conflictingImageSize 4096 8192) :=
  ⟨rfl,
    (image_size_set_once 4096 ⟨some 8192, some 2, some 2, some 8192⟩ 8192).2.1
      rfl (by decide) ⟨2, rfl⟩,
    (image_size_set_once 4096 ⟨some 8192, some 2, some 2, some 8192⟩ 4096).2.2
      8192 rfl (by decide)⟩

/-- The `/dev/null` quirk set up in `BmapCopy.__init__` (BmapCopy2_6.py
lines 184-190): the destination supports fsync unless it is a character
device whose device number has major 1 and minor 3. -/
def dest_supports_fsync (isChr : Bool) (major minor : Nat) : Bool :=
  !(isChr && major == 1 && minor == 3)

/-- `BmapCopy.sync` (BmapCopy2_6.py lines 574-585): call `os.fsync` only
when the destination supports it, wrapping a failure (the `fsyncResult`
argument carries the outcome the OS would give) in `Error`.  The
returned flag records whether fsync was actually invoked. -/
def syncDest (supportsFsync : Bool) (fsyncResult : Except Unit Unit) :
    Except CopyErr Bool :=
  if supportsFsync then
    match fsyncResult with
    | .ok () => .ok true
    | .error () => .error .cannotSync
  else .ok false

/-- C9: when the destination is the character device 1:3 (`/dev/null`),
`sync()` skips the fsync call entirely and returns without error —
whatever the OS outcome would have been, so periodic watermark syncs and
the final sync are no-ops there; for every other destination `sync()`
invokes fsync and wraps its failure in an `Error`. -/
theorem sync_dev_null_quirk (isChr : Bool) (major minor : Nat)
    (r : Except Unit Unit) :
    (dest_supports_fsync isChr major minor = false ↔
        (isChr = true ∧ major = 1 ∧ minor = 3))
      ∧ (isChr = true → major = 1 → minor = 3 →
          syncDest (dest_supports_fsync isChr major minor) r = .ok false)
      ∧ (dest_supports_fsync isChr major minor = true →
          (r = .ok () →
              syncDest (dest_supports_fsync isChr major minor) r = .ok true)
          ∧ (r = .error () →
              syncDest (dest_supports_fsync isChr major minor) r =
                .error .cannotSync)) := by
  refine ⟨?_, ?_, ?_⟩
  · simp [dest_supports_fsync, and_assoc]
  · intro h1 h2 h3
    subst h1 h2 h3
    simp [dest_supports_fsync, syncDest]
  · intro hs
    constructor
    · intro hr
      subst hr
      simp [syncDest, hs]
    · intro hr
      subst hr
      simp [syncDest, hs]

/-- Witness for C9: `/dev/null` (chr 1:3) with a failing OS fsync still
syncs silently; a regular-file destination (not a chr device) propagates
the failure. -/
theorem sync_dev_null_quirk_witness :
    syncDest (dest_supports_fsync true 1 3) (.error ()) = .ok false
      ∧ syncDest (dest_supports_fsync false 8 1) (.error ()) =
          .error .cannotSync :=
  ⟨(sync_dev_null_quirk true 1 3 (.error ())).2.1 rfl rfl rfl,
    ((sync_dev_null_quirk false 8 1 (.error ())).2.2 (by decide)).2 rfl⟩

theorem ceil_div_bounds (l bs : Nat) (hbs : 0 < bs) (hl : 0 < l) :
    (l + bs - 1) / bs = (l - 1) / bs + 1
      ∧ ((l + bs - 1) / bs - 1) * bs < l
      ∧ l ≤ ((l + bs - 1) / bs) * bs := by
  have he : l + bs - 1 = (l - 1) + bs := by omega
  have h1 : (l + bs - 1) / bs = (l - 1) / bs + 1 := by
    rw [he, Nat.add_div_right _ hbs]
  have hdm := Nat.div_add_mod (l - 1) bs
  have hmod := Nat.mod_lt (l - 1) hbs
  refine ⟨h1, ?_, ?_⟩
  · rw [h1, Nat.add_sub_cancel, Nat.mul_comm]
    omega
  · rw [h1, Nat.add_mul, Nat.one_mul, Nat.mul_comm]
    omega

theorem msg_geometry_bounds (start l bs : Nat) (hbs : 0 < bs) (hl : 0 < l) :
    (start + (l + bs - 1) / bs - 1 - start) * bs < l
      ∧ l ≤ (start + (l + bs - 1) / bs - 1 - start + 1) * bs := by
  obtain ⟨hq, hlow, hhigh⟩ := ceil_div_bounds l bs hbs hl
  revert hq hlow hhigh
  generalize (l + bs - 1) / bs = q
  intro hq hlow hhigh
  have hq1 : 0 < q := by
    rw [hq]
    exact Nat.succ_pos _
  have e1 : start + q - 1 - start = q - 1 := by omega
  have e2 : start + q - 1 - start + 1 = q := by omega
  constructor
  · rw [e1]
    exact hlow
  · rw [e2]
    exact hhigh

/-- The message-construction loop of `BmapCopy._get_data` (BmapCopy2_6.py
lines 444-469) for one block range: after one seek to the range start,
walk the batches reading `length * block_size` bytes at the current
position (reads are sequential and may come back short near EOF), stop at
an empty read (which puts the `None` end-of-stream marker, carrying no
geometry), and otherwise put
`("range", start, start + ceil(len(buf) / block_size) - 1, buf)` on the
batch queue.  A message is modelled as `(start, end, len(buf))`. -/
def getDataMsgs (bs : Nat) (image : List Nat) :
    List (Nat × Nat × Nat) → Nat → List (Nat × Nat × Nat)
  | [], _pos => []
  | (start, _e, length) :: rest, pos =>
    let buf := (image.drop pos).take (length * bs)
    if buf.isEmpty then []
    else
      (start, start + (buf.length + bs - 1) / bs - 1, buf.length) ::
        getDataMsgs bs image rest (pos + buf.length)

/-- C10: every data message the reader thread places on the batch queue
satisfies `(end - start) * block_size < len(buf)` and
`len(buf) ≤ (end - start + 1) * block_size` — exactly the writer's two
assertions — because `end` is derived from the bytes actually read as
`start + ceil(len(buf) / block_size) - 1`; this holds for every batch
list, read position and image, hence for every message of every copy
run. -/
theorem get_data_message_geometry (bs : Nat) (image : List Nat)
    (batches : List (Nat × Nat × Nat)) (pos : Nat) (hbs : 0 < bs) :
    ∀ m ∈ getDataMsgs bs image batches pos,
      (m.2.1 - m.1) * bs < m.2.2
        ∧ m.2.2 ≤ (m.2.1 - m.1 + 1) * bs
        ∧ m.2.1 = m.1 + (m.2.2 + bs - 1) / bs - 1 := by
  induction batches generalizing pos with
  | nil =>
    intro m hm
    rw [getDataMsgs] at hm
    exact absurd hm (List.not_mem_nil m)
  | cons hd rest ih =>
    obtain ⟨start, e, length⟩ := hd
    intro m hm
    rw [getDataMsgs] at hm
    by_cases hemp : ((image.drop pos).take (length * bs)).isEmpty = true
    · rw [if_pos hemp] at hm
      exact absurd hm (List.not_mem_nil m)
    · rw [if_neg hemp] at hm
      rcases List.mem_cons.mp hm with rfl | hm
      · dsimp only
        have hL : 0 < ((image.drop pos).take (length * bs)).length := by
          cases hlist : (image.drop pos).take (length * bs) with
          | nil => rw [hlist] at hemp; simp at hemp
          | cons a t => simp
        obtain ⟨hlow, hhigh⟩ :=
          msg_geometry_bounds start ((image.drop pos).take (length * bs)).length
            bs hbs hL
        exact ⟨hlow, hhigh, rfl⟩
      · exact ih (pos + ((image.drop pos).take (length * bs)).length) m hm

/-- Witness for C10: block size 4, one batch of 2 blocks over a 6-byte
image: the short read of 6 bytes yields the message `(0, 1, 6)`, with
`(1 - 0) * 4 < 6 ≤ (1 - 0 + 1) * 4`. -/
theorem get_data_message_geometry_witness :
    0 < 4
      ∧ ∀ m ∈ getDataMsgs 4 [1, 2, 3, 4, 5, 6] [(0, 1, 2)] 0,
          (m.2.1 - m.1) * 4 < m.2.2
            ∧ m.2.2 ≤ (m.2.1 - m.1 + 1) * 4
            ∧ m.2.1 = m.1 + (m.2.2 + 4 - 1) / 4 - 1 :=
  ⟨by decide, get_data_message_geometry 4 [1, 2, 3, 4, 5, 6] [(0, 1, 2)] 0
    (by decide)⟩

/-- Index of the last occurrence of `c` in `l`, if any. -/
def lastIdxOf (c : Char) : List Char → Option Nat
  | [] => none
  | h :: t =>
    match lastIdxOf c t with
    | some i => some (i + 1)
    | none => if h = c then some 0 else none

/-- `re.match(r".*\[(.+)\].*", contents).group(1)` as `_tune_block_device`
uses it to pull the current scheduler out of the sysfs contents: with
greedy matching the group lies between the last `[` that still has a
nonempty bracketed segment after it and the last following `]`, and `.`
does not cross a newline, so only the first line participates.  For the
sysfs format `"noop deadline [cfq]\n"` this is the bracketed name. -/
def extractCurrentScheduler (contents : String) : Option String :=
  match lastIdxOf ']' (contents.toList.takeWhile (fun c => c != '\n')) with
  | none => none
  | some q =>
    match lastIdxOf '['
        ((contents.toList.takeWhile (fun c => c != '\n')).take (q - 1)) with
    | none => none
    | some p =>
      some (String.mk
        (((contents.toList.takeWhile (fun c => c != '\n')).drop (p + 1)).take
          (q - p - 1)))

/-- Contents of the two sysfs pseudo-files
(`queue/scheduler`, `bdi/max_ratio`). -/
structure SysfsState where
  sched : String
  ratio : String
  deriving DecidableEq, Repr

/-- Environment of one `BmapBdevCopy.copy` run: which sysfs opens and
writes succeed.  An `open(path, "r+")` can fail (missing file), a write
can fail separately (e.g. an unsupported scheduler name), and the two
writes of `_restore_bdev_settings` have their own outcomes because the
device can change between tuning and restoration. -/
structure BdevEnv where
  schedOpenOk : Bool
  tuneSchedWriteOk : Bool
  ratioOpenOk : Bool
  tuneRatioWriteOk : Bool
  restoreSchedWriteOk : Bool
  restoreRatioWriteOk : Bool
  deriving DecidableEq, Repr

/-- `BmapBdevCopy._tune_block_device` (BmapCopy2_6.py lines 645-688):
the sysfs state after tuning, together with
`(_old_scheduler_value, _old_max_ratio_value)`.  The scheduler branch
records the regex-extracted old value only in the `else:` clause of the
`try`, i.e. only when open and write both succeeded; the ratio branch
assigns `self._old_max_ratio_value = f_ratio.read()` before its write,
so the old ratio is recorded whenever the open succeeded even if the
write then fails.  Every failure here is demoted to a warning. -/
def tuneBdev (env : BdevEnv) (s : SysfsState) :
    SysfsState × Option String × Option String :=
  let schedStep :=
    if env.schedOpenOk then
      if env.tuneSchedWriteOk then
        ({ s with sched := "noop" }, extractCurrentScheduler s.sched)
      else (s, (none : Option String))
    else (s, (none : Option String))
  let ratioStep :=
    if env.ratioOpenOk then
      if env.tuneRatioWriteOk then
        ({ schedStep.1 with ratio := "1" }, some schedStep.1.ratio)
      else (schedStep.1, some schedStep.1.ratio)
    else (schedStep.1, (none : Option String))
  (ratioStep.1, schedStep.2, ratioStep.2)

/-- Second half of `_restore_bdev_settings` (lines 704-710): write the
recorded ratio back, fatally on failure. -/
def restoreRatioStep (env : BdevEnv) (oldRatio : Option String)
    (s : SysfsState) : Except CopyErr Unit × SysfsState :=
  match oldRatio with
  | some v =>
    if env.restoreRatioWriteOk then (.ok (), { s with ratio := v })
    else (.error .restoreRatioFailed, s)
  | none => (.ok (), s)

/-- `BmapBdevCopy._restore_bdev_settings` (BmapCopy2_6.py lines
690-710): write back each recorded value; a failing write raises
`Error` (fatal), and a scheduler-restore failure aborts before the
ratio restore is attempted. -/
def restoreBdev (env : BdevEnv) (oldSched oldRatio : Option String)
    (s : SysfsState) : Except CopyErr Unit × SysfsState :=
  match oldSched with
  | some v =>
    if env.restoreSchedWriteOk then
      restoreRatioStep env oldRatio { s with sched := v }
    else (.error .restoreSchedFailed, s)
  | none => restoreRatioStep env oldRatio s

/-- `BmapBdevCopy.copy` (BmapCopy2_6.py lines 712-733): tune, run the
base-class copy — whose outcome `innerResult` is a parameter, since it
never touches the sysfs state — and restore inside `finally:`, so
restoration runs whether the copy succeeded or raised; an exception
raised by the restoration supersedes the copy's own outcome, exactly as
a Python `finally` does. -/
def bdevCopy (env : BdevEnv) (innerResult : Except CopyErr Unit)
    (s0 : SysfsState) : Except CopyErr Unit × SysfsState :=
  match restoreBdev env (tuneBdev env s0).2.1 (tuneBdev env s0).2.2
      (tuneBdev env s0).1 with
  | (.error e, s2) => (.error e, s2)
  | (.ok (), s2) => (innerResult, s2)

/-- C8: on every block-device copy attempt, whatever the inner copy's
outcome: the values recorded before tuning are exactly the prior
scheduler name (regex-extracted, recorded when the tuning open and write
succeeded) and the prior `max_ratio` contents (recorded when its open
succeeded); when the restoration writes succeed those recorded values
are written back to the pseudo-files on exit and the copy's own outcome
is reported; and a restoration failure raises a fatal error even when
the copy itself succeeded. -/
theorem bdev_restore_always (env : BdevEnv) (inner : Except CopyErr Unit)
    (s0 : SysfsState) :
    ((tuneBdev env s0).2.1 =
        (if env.schedOpenOk && env.tuneSchedWriteOk then
          extractCurrentScheduler s0.sched else none))
      ∧ ((tuneBdev env s0).2.2 =
          (if env.ratioOpenOk then some s0.ratio else none))
      ∧ (env.restoreSchedWriteOk = true → env.restoreRatioWriteOk = true →
          (bdevCopy env inner s0).1 = inner
            ∧ (∀ v, (tuneBdev env s0).2.1 = some v →
                ((bdevCopy env inner s0).2).sched = v)
            ∧ (∀ v, (tuneBdev env s0).2.2 = some v →
                ((bdevCopy env inner s0).2).ratio = v))
      ∧ (∀ v, (tuneBdev env s0).2.1 = some v →
          env.restoreSchedWriteOk = false →
          (bdevCopy env inner s0).1 = .error .restoreSchedFailed)
      ∧ (∀ v, (tuneBdev env s0).2.2 = some v →
          env.restoreRatioWriteOk = false →
          ((tuneBdev env s0).2.1 = none ∨ env.restoreSchedWriteOk = true) →
          (bdevCopy env inner s0).1 = .error .restoreRatioFailed) := by
  obtain ⟨so, tsw, ro, trw, rsw, rrw⟩ := env
  cases so <;> cases tsw <;> cases ro <;> cases trw <;> cases rsw <;>
    cases rrw <;> cases hex : extractCurrentScheduler s0.sched <;>
      simp [bdevCopy, tuneBdev, restoreBdev, restoreRatioStep, hex]

/-- Witness for C8: prior scheduler line `"noop deadline [cfq]\n"` and
ratio `"100\n"`, every sysfs operation succeeding, inner copy failing:
the recorded `"cfq"` and `"100\n"` are written back and the copy's own
failure is reported. -/
theorem bdev_restore_always_witness :
    extractCurrentScheduler "noop deadline [cfq]\n" = some "cfq"
      ∧ (bdevCopy ⟨true, true, true, true, true, true⟩ (.error .cannotSync)
            ⟨"noop deadline [cfq]\n", "100\n"⟩).1 = .error .cannotSync
      ∧ ((bdevCopy ⟨true, true, true, true, true, true⟩ (.error .cannotSync)
            ⟨"noop deadline [cfq]\n", "100\n"⟩).2).sched = "cfq"
      ∧ ((bdevCopy ⟨true, true, true, true, true, true⟩ (.error .cannotSync)
            ⟨"noop deadline [cfq]\n", "100\n"⟩).2).ratio = "100\n" :=
  ⟨by decide,
    ((bdev_restore_always ⟨true, true, true, true, true, true⟩
        (.error .cannotSync) ⟨"noop deadline [cfq]\n", "100\n"⟩).2.2.1
      rfl rfl).1,
    ((bdev_restore_always ⟨true, true, true, true, true, true⟩
        (.error .cannotSync) ⟨"noop deadline [cfq]\n", "100\n"⟩).2.2.1
      rfl rfl).2.1 "cfq" (by decide),
    ((bdev_restore_always ⟨true, true, true, true, true, true⟩
        (.error .cannotSync) ⟨"noop deadline [cfq]\n", "100\n"⟩).2.2.1
      rfl rfl).2.2 "100\n" (by decide)⟩
